import Mathlib

/-!
Verification of OXTARI's batch embedding pipeline (planner, partitioner,
scheduler, retry/backoff), WebSocket reconnection, and document pagination.

The batch embedding core (`goldenoxtari/components/managers.py`) is not
shipped in this tree; only its design documents are. Its definitions below
are therefore modelled from the spec, as marked in their doc comments.
The `ReconnectingWebSocket` class and the `DocumentSearch` pagination are
translated directly from the TypeScript sources.
-/

namespace Oxtari

/-! ## Batch partitioning -/

/-- Modelled from the spec: the scheduler step "Partition `chunks` into
`total_batches` contiguous batches of `batch_size` (last batch may be
shorter)". The concrete partitioner in `goldenoxtari/components/managers.py`
is missing from the tree. For `bs ≥ 1` each step takes the first `bs`
elements as a batch and recurses on the rest. -/
def makeBatches (bs : Nat) : List α → List (List α)
  | [] => []
  | x :: xs => (x :: xs.take (bs - 1)) :: makeBatches bs (xs.drop (bs - 1))
termination_by l => l.length
decreasing_by
  simp only [List.length_cons, List.length_drop]
  omega

theorem makeBatches_nil (bs : Nat) : makeBatches bs ([] : List α) = [] := by
  simp [makeBatches]

theorem makeBatches_cons (bs : Nat) (x : α) (xs : List α) :
    makeBatches bs (x :: xs) =
      (x :: xs.take (bs - 1)) :: makeBatches bs (xs.drop (bs - 1)) := by
  simp [makeBatches]

/-- Concatenating the batches in index order gives back the original list. -/
theorem makeBatches_join (bs : Nat) (l : List α) :
    (makeBatches bs l).flatten = l := by
  induction l using makeBatches.induct bs with
  | case1 => simp [makeBatches]
  | case2 x xs ih =>
      rw [makeBatches_cons]
      simp only [List.flatten_cons, ih]
      simp [List.cons_append, List.take_append_drop]

/-- Every batch produced is non-empty. -/
theorem makeBatches_ne_nil (bs : Nat) (l : List α) :
    ∀ b ∈ makeBatches bs l, b ≠ [] := by
  induction l using makeBatches.induct bs with
  | case1 => simp [makeBatches]
  | case2 x xs ih =>
      rw [makeBatches_cons]
      intro b hb
      rcases List.mem_cons.mp hb with h | h
      · subst h; simp
      · exact ih b h

/-- Every batch has length at most `bs` (when `bs ≥ 1`). -/
theorem makeBatches_length_le (bs : Nat) (hbs : 1 ≤ bs) (l : List α) :
    ∀ b ∈ makeBatches bs l, b.length ≤ bs := by
  induction l using makeBatches.induct bs with
  | case1 => simp [makeBatches]
  | case2 x xs ih =>
      rw [makeBatches_cons]
      intro b hb
      rcases List.mem_cons.mp hb with h | h
      · subst h
        simp only [List.length_cons]
        have := List.length_take_le (bs - 1) xs
        omega
      · exact ih b h

/-- Every batch except possibly the last has length exactly `bs`. -/
theorem makeBatches_dropLast_length (bs : Nat) (hbs : 1 ≤ bs) (l : List α) :
    ∀ b ∈ (makeBatches bs l).dropLast, b.length = bs := by
  induction l using makeBatches.induct bs with
  | case1 => simp [makeBatches]
  | case2 x xs ih =>
      rw [makeBatches_cons]
      intro b hb
      rcases h : makeBatches bs (xs.drop (bs - 1)) with _ | ⟨c, cs⟩
      · rw [h] at hb; simp at hb
      · rw [h] at hb
        rw [List.dropLast_cons_of_ne_nil (by simp)] at hb
        rcases List.mem_cons.mp hb with h1 | h1
        · subst h1
          -- the recursive call is non-empty, so `xs.drop (bs-1)` is non-empty,
          -- hence `xs` has at least `bs - 1` elements and the take is full
          have hne : xs.drop (bs - 1) ≠ [] := by
            intro hc; rw [hc] at h; simp [makeBatches] at h
          have hlen : bs - 1 ≤ xs.length := by
            by_contra hcon
            push_neg at hcon
            have : xs.drop (bs - 1) = [] := List.drop_eq_nil_of_le (by omega)
            exact hne this
          simp only [List.length_cons, List.length_take]
          omega
        · rw [← h] at h1
          exact ih b h1

/-- The number of batches is `⌈l.length / bs⌉` (when `bs ≥ 1`). -/
theorem makeBatches_count (bs : Nat) (hbs : 1 ≤ bs) (l : List α) :
    (makeBatches bs l).length = (l.length + bs - 1) / bs := by
  induction l using makeBatches.induct bs with
  | case1 =>
      rw [makeBatches_nil]
      simp only [List.length_nil]
      rw [Nat.div_eq_of_lt (by omega)]
  | case2 x xs ih =>
      rw [makeBatches_cons]
      simp only [List.length_cons, ih, List.length_drop]
      have hrhs : xs.length + 1 + bs - 1 = xs.length + bs := by omega
      rw [hrhs, Nat.add_div_right _ (by omega)]
      rcases Nat.le_total (bs - 1) xs.length with h | h
      · have heq : xs.length - (bs - 1) + bs - 1 = xs.length := by omega
        rw [heq]
      · have h1 : xs.length - (bs - 1) = 0 := by omega
        rw [h1]
        have h2 : (0 + bs - 1) / bs = 0 := Nat.div_eq_of_lt (by omega)
        have h3 : xs.length / bs = 0 := Nat.div_eq_of_lt (by omega)
        omega

/-! ## Batch planner -/

/-- Modelled from the spec: `EmbedderProfile` — "static, per-provider
configuration: `base_batch_size` (int > 0), `max_concurrent_batches`
(int > 0), `supports_retry_after` (bool)"; the batch-size policy's large
tier additionally uses "a provider-specific multiplier (e.g., 2–4×),
capped at a provider-specific absolute ceiling".  The concrete profiles in
`goldenoxtari/components/managers.py` are missing from the tree.  The
multiplier and ceiling are recorded here with their spec-implied
positivity (a multiplier of "2–4×" and a hard request-size limit are both
at least 1). -/
structure EmbedderProfile where
  base_batch_size : Nat
  max_concurrent_batches : Nat
  supports_retry_after : Bool
  scale : Nat
  batch_ceiling : Nat
  scale_pos : 1 ≤ scale
  ceiling_pos : 1 ≤ batch_ceiling

/-- Modelled from the spec: `BatchPlan` — "`batch_size` (int),
`concurrency` (int), `total_batches` (int)". -/
structure BatchPlan where
  batch_size : Nat
  concurrency : Nat
  total_batches : Nat
deriving DecidableEq, Repr

/-- Ceiling division on naturals, `⌈a / b⌉`. -/
def ceilDiv (a b : Nat) : Nat := (a + b - 1) / b

/-- Modelled from the spec: the content-size-aware batch-size policy of
§4.1 ("`chunk_count <= 50`: `batch_size = min(8, profile.base_batch_size)`";
"`51 <= chunk_count <= 200`: `batch_size = profile.base_batch_size`";
"`chunk_count > 200`: `batch_size = profile.base_batch_size * scale` …
capped at a provider-specific absolute ceiling").  The concrete
implementation in `goldenoxtari/components/managers.py` is missing from
the tree. -/
def planBatchSize (chunk_count : Nat) (p : EmbedderProfile) : Nat :=
  if chunk_count ≤ 50 then min 8 p.base_batch_size
  else if chunk_count ≤ 200 then p.base_batch_size
  else min (p.base_batch_size * p.scale) p.batch_ceiling

/-- Modelled from the spec: `plan(chunk_count, profile) -> BatchPlan` with
"`total_batches = ceil(chunk_count / batch_size)`" and
"`concurrency = min(profile.max_concurrent_batches, total_batches)`".
The concrete implementation (`batch_vectorize` setup in
`goldenoxtari/components/managers.py`) is missing from the tree. -/
def plan (chunk_count : Nat) (p : EmbedderProfile) : BatchPlan :=
  let bs := planBatchSize chunk_count p
  let tb := ceilDiv chunk_count bs
  { batch_size := bs
    concurrency := min p.max_concurrent_batches tb
    total_batches := tb }

theorem planBatchSize_pos (chunk_count : Nat) (p : EmbedderProfile)
    (hb : 1 ≤ p.base_batch_size) : 1 ≤ planBatchSize chunk_count p := by
  unfold planBatchSize
  have hs := p.scale_pos
  have hc := p.ceiling_pos
  split
  · omega
  · split
    · omega
    · have : 1 * 1 ≤ p.base_batch_size * p.scale := Nat.mul_le_mul hb hs
      omega

theorem ceilDiv_pos (a b : Nat) (ha : 1 ≤ a) (hb : 1 ≤ b) :
    1 ≤ ceilDiv a b := by
  unfold ceilDiv
  rw [Nat.le_div_iff_mul_le (by omega)]
  omega

/-- Modelled from the spec: a sample provider profile matching the
documented Upstage figures (base batch size 16, large-tier batch size 32,
i.e. multiplier 2, concurrency ceiling 8). -/
def upstageProfile : EmbedderProfile where
  base_batch_size := 16
  max_concurrent_batches := 8
  supports_retry_after := true
  scale := 2
  batch_ceiling := 32
  scale_pos := by decide
  ceiling_pos := by decide

/-- C1: partitioning a chunk list into contiguous batches per the
`BatchPlan` and concatenating the batches in index order reproduces the
original list exactly — no chunk omitted or duplicated, order unchanged,
the number of batches is `total_batches`, every batch is non-empty, and
only the last batch may be shorter than `batch_size`. -/
theorem C1_partition_roundtrip {α : Type} (chunks : List α)
    (p : EmbedderProfile) (hb : 1 ≤ p.base_batch_size) :
    (makeBatches (plan chunks.length p).batch_size chunks).flatten = chunks ∧
    (makeBatches (plan chunks.length p).batch_size chunks).length =
      (plan chunks.length p).total_batches ∧
    (∀ b ∈ makeBatches (plan chunks.length p).batch_size chunks, b ≠ []) ∧
    (∀ b ∈ makeBatches (plan chunks.length p).batch_size chunks,
      b.length ≤ (plan chunks.length p).batch_size) ∧
    (∀ b ∈ (makeBatches (plan chunks.length p).batch_size chunks).dropLast,
      b.length = (plan chunks.length p).batch_size) := by
  have hbs : 1 ≤ (plan chunks.length p).batch_size :=
    planBatchSize_pos chunks.length p hb
  refine ⟨makeBatches_join _ _, ?_, makeBatches_ne_nil _ _,
    makeBatches_length_le _ hbs _, makeBatches_dropLast_length _ hbs _⟩
  rw [makeBatches_count _ hbs]
  rfl

theorem C1_partition_roundtrip_witness :
    1 ≤ upstageProfile.base_batch_size ∧
    ((makeBatches (plan ([0, 1, 2] : List Nat).length upstageProfile).batch_size
        [0, 1, 2]).flatten = [0, 1, 2] ∧
      (makeBatches (plan ([0, 1, 2] : List Nat).length upstageProfile).batch_size
        [0, 1, 2]).length = (plan ([0, 1, 2] : List Nat).length upstageProfile).total_batches ∧
      (∀ b ∈ makeBatches (plan ([0, 1, 2] : List Nat).length upstageProfile).batch_size
        [0, 1, 2], b ≠ []) ∧
      (∀ b ∈ makeBatches (plan ([0, 1, 2] : List Nat).length upstageProfile).batch_size
        [0, 1, 2], b.length ≤ (plan ([0, 1, 2] : List Nat).length upstageProfile).batch_size) ∧
      (∀ b ∈ (makeBatches (plan ([0, 1, 2] : List Nat).length upstageProfile).batch_size
        [0, 1, 2]).dropLast,
        b.length = (plan ([0, 1, 2] : List Nat).length upstageProfile).batch_size)) :=
  ⟨by decide, C1_partition_roundtrip [0, 1, 2] upstageProfile (by decide)⟩

/-- C3 (amended to chunk counts ≥ 1): for every chunk count `C ≥ 1` and
profile with positive `base_batch_size` and `max_concurrent_batches`,
`plan C p` has `batch_size ≥ 1`, `concurrency ≥ 1`,
`total_batches = ceil(C / batch_size)` and
`concurrency = min(max_concurrent_batches, total_batches)`.  At `C = 0`
the spec's own formulas give `total_batches = 0` and hence
`concurrency = 0`, so the claimed invariant `concurrency ≥ 1` fails
there. -/
theorem C3_plan_invariants (C : Nat) (p : EmbedderProfile)
    (hb : 1 ≤ p.base_batch_size) (hm : 1 ≤ p.max_concurrent_batches)
    (hC : 1 ≤ C) :
    1 ≤ (plan C p).batch_size ∧
    1 ≤ (plan C p).concurrency ∧
    (plan C p).total_batches = ceilDiv C (plan C p).batch_size ∧
    (plan C p).concurrency =
      min p.max_concurrent_batches (plan C p).total_batches := by
  have hbs : 1 ≤ planBatchSize C p := planBatchSize_pos C p hb
  have htb : 1 ≤ ceilDiv C (planBatchSize C p) := ceilDiv_pos C _ hC hbs
  exact ⟨hbs, le_min hm htb, rfl, rfl⟩

theorem C3_plan_invariants_witness :
    1 ≤ upstageProfile.base_batch_size ∧
    1 ≤ upstageProfile.max_concurrent_batches ∧
    1 ≤ (25 : Nat) ∧
    (1 ≤ (plan 25 upstageProfile).batch_size ∧
      1 ≤ (plan 25 upstageProfile).concurrency ∧
      (plan 25 upstageProfile).total_batches =
        ceilDiv 25 (plan 25 upstageProfile).batch_size ∧
      (plan 25 upstageProfile).concurrency =
        min upstageProfile.max_concurrent_batches
          (plan 25 upstageProfile).total_batches) :=
  ⟨by decide, by decide, by decide,
    C3_plan_invariants 25 upstageProfile (by decide) (by decide) (by decide)⟩

/-- C3 fails as stated at chunk count 0: the planner formulas give
`concurrency = min(max_concurrent_batches, 0) = 0`, not `≥ 1`, even though
`base_batch_size` and `max_concurrent_batches` are positive. -/
theorem C3_counterexample_zero_chunks :
    ¬ 1 ≤ (plan 0 upstageProfile).concurrency := by decide

/-- C4: the planner's batch-size policy is the three-tier content-size
rule — `min 8 base` for at most 50 chunks, `base` for 51–200 chunks, and
`base * multiplier` capped at the provider ceiling above 200 chunks; in
particular 25 chunks with base batch size 16 yield batch size 8 and 4
total batches. -/
theorem C4_tiered_batch_size (C : Nat) (p : EmbedderProfile) :
    (C ≤ 50 → (plan C p).batch_size = min 8 p.base_batch_size) ∧
    (51 ≤ C → C ≤ 200 → (plan C p).batch_size = p.base_batch_size) ∧
    (200 < C →
      (plan C p).batch_size = min (p.base_batch_size * p.scale) p.batch_ceiling) ∧
    (plan 25 upstageProfile).batch_size = 8 ∧
    (plan 25 upstageProfile).total_batches = 4 := by
  refine ⟨?_, ?_, ?_, by decide, by decide⟩
  · intro h
    simp [plan, planBatchSize, h]
  · intro h1 h2
    simp [plan, planBatchSize, h2]
    omega
  · intro h
    have h1 : ¬ C ≤ 50 := by omega
    have h2 : ¬ C ≤ 200 := by omega
    simp [plan, planBatchSize, h1, h2]

theorem C4_tiered_batch_size_witness :
    (plan 40 upstageProfile).batch_size = min 8 upstageProfile.base_batch_size ∧
    (plan 100 upstageProfile).batch_size = upstageProfile.base_batch_size ∧
    (plan 591 upstageProfile).batch_size =
      min (upstageProfile.base_batch_size * upstageProfile.scale)
        upstageProfile.batch_ceiling :=
  ⟨(C4_tiered_batch_size 40 upstageProfile).1 (by decide),
    (C4_tiered_batch_size 100 upstageProfile).2.1 (by decide) (by decide),
    (C4_tiered_batch_size 591 upstageProfile).2.2.1 (by decide)⟩

/-! ## Scheduler data model and result aggregation -/

/-- Modelled from the spec: a `Chunk` has "a stable identifier (document
UUID + chunk index) and its text content". -/
structure Chunk where
  doc_uuid : String
  chunk_index : Nat
  text : String
deriving DecidableEq, Repr

/-- Stable chunk identifier: document UUID plus chunk index. -/
abbrev ChunkId := String × Nat

def Chunk.id (c : Chunk) : ChunkId := (c.doc_uuid, c.chunk_index)

/-- Modelled from the spec: the error taxonomy of §4.3/§7 — `RateLimited`,
`Retryable`, `AuthFatal` (401/403), `RequestFatal` (413/validation).  The
provider-specific classification code is missing from the tree. -/
inductive ErrorClass where
  | rateLimited
  | retryable
  | authFatal
  | requestFatal
deriving DecidableEq, Repr

/-- Classes `RateLimited` and `AuthFatal` are systemic: they abort remaining
dispatch; the other kinds are batch-local. -/
def ErrorClass.systemic : ErrorClass → Bool
  | .rateLimited => true
  | .authFatal => true
  | .retryable => false
  | .requestFatal => false

/-- Modelled from the spec: `RunResult` — "`vectors` (ordered list aligned
to the original chunk order, only for chunks whose batch succeeded),
`failed_batches` (… with batch index and chunk ids), `success_rate`
(successful chunks / total chunks), `elapsed_seconds`". -/
structure RunResult (β : Type) where
  vectors : List β
  failed_batches : List (Nat × List ChunkId)
  success_rate : ℚ
  elapsed_seconds : ℚ

/-- The contiguous batches of a run, per the plan for the chunk count. -/
def runBatches (chunks : List Chunk) (p : EmbedderProfile) : List (List Chunk) :=
  makeBatches (plan chunks.length p).batch_size chunks

/-- Modelled from the spec: the batches whose embedding succeeded, kept in
batch-index order (`ok k` tells whether batch `k` finally succeeded). -/
def okBatchList (batches : List (List Chunk)) (ok : Nat → Bool) : List (List Chunk) :=
  (batches.enum.filter (fun q => ok q.1)).map Prod.snd

/-- Modelled from the spec: "final vector assembly re-orders by original
chunk position" — vectors of all succeeded batches, in original chunk
order (`f` is the embedding, one vector per chunk). -/
def aggregateVectors {β : Type} (batches : List (List Chunk)) (ok : Nat → Bool)
    (f : Chunk → β) : List β :=
  ((okBatchList batches ok).flatten).map f

/-- Modelled from the spec: `failed_batches` records each failed batch's
index together with its chunk ids. -/
def failedBatchReport (batches : List (List Chunk)) (ok : Nat → Bool) :
    List (Nat × List ChunkId) :=
  (batches.enum.filter (fun q => !(ok q.1))).map (fun q => (q.1, q.2.map Chunk.id))

/-- Modelled from the spec: `success_rate` = successful chunks / total
chunks. -/
def successRate (batches : List (List Chunk)) (ok : Nat → Bool) : ℚ :=
  ((okBatchList batches ok).flatten.length : ℚ) / (batches.flatten.length : ℚ)

/-- Modelled from the spec: aggregation of a settled run into a
`RunResult` (spec §4.2 steps 5–6).  The concrete aggregation loop in
`goldenoxtari/components/managers.py` is missing from the tree. -/
def collectRun {β : Type} (chunks : List Chunk) (p : EmbedderProfile)
    (ok : Nat → Bool) (f : Chunk → β) (elapsed : ℚ) : RunResult β :=
  { vectors := aggregateVectors (runBatches chunks p) ok f
    failed_batches := failedBatchReport (runBatches chunks p) ok
    success_rate := successRate (runBatches chunks p) ok
    elapsed_seconds := elapsed }

/-- Completion events as they arrive: batch index paired with that batch's
vectors, in completion order. -/
def canonicalCompletions {β : Type} (batches : List (List Chunk)) (ok : Nat → Bool)
    (f : Chunk → β) : List (Nat × List β) :=
  (batches.enum.filter (fun q => ok q.1)).map (fun q => (q.1, q.2.map f))

/-- Key order on completion events: compare batch indices. -/
def keyLE {β : Type} (a b : Nat × List β) : Prop := a.1 ≤ b.1

/-- Strict key order on completion events. -/
def keyLT {β : Type} (a b : Nat × List β) : Prop := a.1 < b.1

instance {β : Type} : DecidableRel (@keyLE β) := fun a b => Nat.decLe a.1 b.1

instance {β : Type} : IsTotal (Nat × List β) keyLE := ⟨fun a b => Nat.le_total a.1 b.1⟩

instance {β : Type} : IsTrans (Nat × List β) keyLE := ⟨fun _ _ _ => Nat.le_trans⟩

instance {β : Type} : IsAntisymm (Nat × List β) keyLT :=
  ⟨fun _ _ h1 h2 => absurd (Nat.lt_trans h1 h2) (Nat.lt_irrefl _)⟩

/-- Modelled from the spec: "batches … may complete out of order; final
vector assembly re-orders by original chunk position, not completion
order" — completions are sorted back into batch-index order and their
vectors concatenated. -/
def assembleCompletions {β : Type} (cs : List (Nat × List β)) : List β :=
  ((cs.insertionSort keyLE).map Prod.snd).flatten

/-- A sublist of lists flattens to a sublist of the flattening. -/
theorem flatten_sublist_flatten {α : Type} {l₁ l₂ : List (List α)}
    (h : l₁.Sublist l₂) : l₁.flatten.Sublist l₂.flatten := by
  induction h with
  | slnil => simp
  | cons a _ ih =>
      simp only [List.flatten_cons]
      exact ih.trans (List.sublist_append_right _ _)
  | cons₂ a _ ih =>
      simp only [List.flatten_cons]
      exact List.Sublist.append (List.Sublist.refl a) ih

theorem enum_pairwise_keyLE {α : Type} (l : List α) :
    l.enum.Pairwise (fun a b => a.1 ≤ b.1) := by
  have h1 : (l.enum.map Prod.fst).Pairwise (· ≤ ·) := by
    rw [List.enum_map_fst]
    exact (List.pairwise_lt_range _).imp Nat.le_of_lt
  exact (List.pairwise_map.mp h1)

theorem canonicalCompletions_pairwise {β : Type} (batches : List (List Chunk))
    (ok : Nat → Bool) (f : Chunk → β) :
    (canonicalCompletions batches ok f).Pairwise (@keyLE β) := by
  unfold canonicalCompletions
  rw [List.pairwise_map]
  exact (enum_pairwise_keyLE batches).filter _

theorem canonicalCompletions_nodup_keys {β : Type} (batches : List (List Chunk))
    (ok : Nat → Bool) (f : Chunk → β) :
    ((canonicalCompletions batches ok f).map Prod.fst).Nodup := by
  unfold canonicalCompletions
  rw [List.map_map]
  have hsub : ((batches.enum.filter (fun q => ok q.1)).map (Prod.fst ∘
      (fun q : Nat × List Chunk => (q.1, q.2.map f)))).Sublist
      (batches.enum.map Prod.fst) :=
    List.Sublist.map _ (List.filter_sublist _)
  exact (List.nodup_enum_map_fst batches).sublist hsub

/-- Sorting any permutation of the in-order completion list recovers the
in-order vectors: assembly is independent of completion order. -/
theorem assembleCompletions_perm {β : Type} (batches : List (List Chunk))
    (ok : Nat → Bool) (f : Chunk → β) (cs : List (Nat × List β))
    (hperm : cs.Perm (canonicalCompletions batches ok f)) :
    assembleCompletions cs = aggregateVectors batches ok f := by
  have hs : (cs.insertionSort keyLE).Perm (canonicalCompletions batches ok f) :=
    (List.perm_insertionSort keyLE cs).trans hperm
  have hsorted : (cs.insertionSort keyLE).Pairwise (@keyLE β) :=
    List.sorted_insertionSort keyLE cs
  have hnodup : ((cs.insertionSort keyLE).map Prod.fst).Nodup := by
    have := canonicalCompletions_nodup_keys batches ok f
    exact (hs.map Prod.fst).nodup_iff.mpr this
  have hlt_sort : (cs.insertionSort keyLE).Pairwise (@keyLT β) := by
    have hne : (cs.insertionSort keyLE).Pairwise
        (fun a b : Nat × List β => a.1 ≠ b.1) :=
      List.pairwise_map.mp hnodup
    exact (hsorted.and hne).imp (fun h => Nat.lt_of_le_of_ne h.1 h.2)
  have hlt_can : (canonicalCompletions batches ok f).Pairwise (@keyLT β) := by
    have hne : (canonicalCompletions batches ok f).Pairwise
        (fun a b : Nat × List β => a.1 ≠ b.1) :=
      List.pairwise_map.mp (canonicalCompletions_nodup_keys batches ok f)
    exact ((canonicalCompletions_pairwise batches ok f).and hne).imp
      (fun h => Nat.lt_of_le_of_ne h.1 h.2)
  have heq : cs.insertionSort keyLE = canonicalCompletions batches ok f :=
    List.eq_of_perm_of_sorted hs hlt_sort hlt_can
  unfold assembleCompletions
  rw [heq]
  unfold canonicalCompletions aggregateVectors okBatchList
  rw [List.map_map, List.map_flatten, List.map_map]
  rfl

/-- C2: if every batch succeeds the run's `vectors` equal the input chunks
embedded in input order (same length, same order); if batch `k` fails
after exhausting retries, `failed_batches` carries `k` with its chunk ids
while `vectors` consist exactly of the succeeded batches' chunks embedded
in their original relative order (a sublist of the input, no padding); and
the assembled vector list is independent of batch completion order. -/
theorem C2_run_result_ordering {β : Type} (chunks : List Chunk)
    (p : EmbedderProfile) (ok : Nat → Bool) (f : Chunk → β) (elapsed : ℚ) :
    ((∀ k, ok k = true) →
      (collectRun chunks p ok f elapsed).vectors = chunks.map f) ∧
    (∀ k, k < (runBatches chunks p).length → ok k = false →
      (k, ((runBatches chunks p).getD k []).map Chunk.id) ∈
        (collectRun chunks p ok f elapsed).failed_batches) ∧
    ((collectRun chunks p ok f elapsed).vectors =
      ((okBatchList (runBatches chunks p) ok).flatten).map f) ∧
    ((okBatchList (runBatches chunks p) ok).flatten.Sublist chunks) ∧
    (∀ cs : List (Nat × List β),
      cs.Perm (canonicalCompletions (runBatches chunks p) ok f) →
      assembleCompletions cs = (collectRun chunks p ok f elapsed).vectors) := by
  refine ⟨?_, ?_, rfl, ?_, ?_⟩
  · intro hall
    show aggregateVectors (runBatches chunks p) ok f = chunks.map f
    unfold aggregateVectors okBatchList
    rw [List.filter_eq_self.mpr (fun a _ => hall a.1), List.enum_map_snd]
    rw [runBatches, makeBatches_join]
  · intro k hk hko
    show _ ∈ failedBatchReport (runBatches chunks p) ok
    unfold failedBatchReport
    have hk' : k < (runBatches chunks p).enum.length := by
      simpa using hk
    have hmem : (k, (runBatches chunks p)[k]) ∈ (runBatches chunks p).enum := by
      have := List.getElem_enum (runBatches chunks p) k hk'
      rw [← this]
      exact List.getElem_mem hk'
    refine List.mem_map.mpr ⟨(k, (runBatches chunks p)[k]), ?_, ?_⟩
    · exact List.mem_filter.mpr ⟨hmem, by simp [hko]⟩
    · rw [List.getD_eq_getElem (runBatches chunks p) [] hk]
  · have h1 : (okBatchList (runBatches chunks p) ok).Sublist (runBatches chunks p) := by
      unfold okBatchList
      have := List.Sublist.map Prod.snd
        (List.filter_sublist (l := (runBatches chunks p).enum)
          (p := fun q => ok q.1))
      rwa [List.enum_map_snd] at this
    have h2 := flatten_sublist_flatten h1
    rwa [runBatches, makeBatches_join] at h2
  · intro cs hperm
    exact assembleCompletions_perm (runBatches chunks p) ok f cs hperm

/-- Three sample chunks of one document, used to instantiate the run
theorems on concrete inputs. -/
def sampleChunks : List Chunk :=
  [⟨"doc", 0, "alpha"⟩, ⟨"doc", 1, "beta"⟩, ⟨"doc", 2, "gamma"⟩]

theorem C2_run_result_ordering_witness :
    ((collectRun sampleChunks upstageProfile (fun _ => true) Chunk.text 0).vectors =
      sampleChunks.map Chunk.text) ∧
    ((0, ((runBatches sampleChunks upstageProfile).getD 0 []).map Chunk.id) ∈
      (collectRun sampleChunks upstageProfile (fun _ => false) Chunk.text 0).failed_batches) :=
  ⟨(C2_run_result_ordering sampleChunks upstageProfile (fun _ => true)
      Chunk.text 0).1 (fun _ => rfl),
    (C2_run_result_ordering sampleChunks upstageProfile (fun _ => false)
      Chunk.text 0).2.1 0
      (by simp [runBatches, plan, planBatchSize, ceilDiv, sampleChunks,
        makeBatches_cons, makeBatches_nil])
      rfl⟩

/-! ## Run entry point and setup failures -/

/-- Modelled from the spec: `SetupFailure` — "embedder unreachable before
any batch attempted — surfaced to the caller as a hard failure of the
whole run, nothing attempted". -/
inductive SetupFailure where
  | embedderUnreachable
deriving DecidableEq, Repr

/-- Modelled from the spec: `run(chunks, embedder, profile, on_progress)
-> RunResult` — "Never raises for expected per-batch failures; only an
unrecoverable setup error … surfaces as a hard failure to the caller" and
"it always returns a `RunResult`".  The embedder's availability at setup
is the boolean `alive`; per-batch success after retries is the oracle
`ok`; the concrete `batch_vectorize` in
`goldenoxtari/components/managers.py` is missing from the tree. -/
def run {β : Type} (chunks : List Chunk) (alive : Bool) (p : EmbedderProfile)
    (ok : Nat → Bool) (f : Chunk → β) (elapsed : ℚ) :
    Except SetupFailure (RunResult β) :=
  if alive then Except.ok (collectRun chunks p ok f elapsed)
  else Except.error SetupFailure.embedderUnreachable

/-- C7: the run never surfaces a hard failure for per-batch or data-level
failures — for every failure pattern `ok` it returns a `RunResult`
carrying `success_rate` and `failed_batches`; an error is returned exactly
when the embedder is unreachable at setup, before any batch outcome
matters. -/
theorem C7_run_total (chunks : List Chunk) (alive : Bool) (p : EmbedderProfile)
    (ok : Nat → Bool) {β : Type} (f : Chunk → β) (elapsed : ℚ) :
    (alive = true →
      run chunks alive p ok f elapsed =
        Except.ok (collectRun chunks p ok f elapsed) ∧
      (collectRun chunks p ok f elapsed).success_rate =
        successRate (runBatches chunks p) ok ∧
      (collectRun chunks p ok f elapsed).failed_batches =
        failedBatchReport (runBatches chunks p) ok) ∧
    (∀ e, run chunks alive p ok f elapsed = Except.error e →
      alive = false ∧ e = SetupFailure.embedderUnreachable) := by
  constructor
  · intro ha
    subst ha
    exact ⟨rfl, rfl, rfl⟩
  · intro e he
    cases alive with
    | false => cases e; exact ⟨rfl, rfl⟩
    | true => simp [run] at he

theorem C7_run_total_witness :
    (run sampleChunks true upstageProfile (fun _ => false) Chunk.text 0 =
      Except.ok (collectRun sampleChunks upstageProfile (fun _ => false) Chunk.text 0) ∧
      (collectRun sampleChunks upstageProfile (fun _ => false) Chunk.text 0).success_rate =
        successRate (runBatches sampleChunks upstageProfile) (fun _ => false) ∧
      (collectRun sampleChunks upstageProfile (fun _ => false) Chunk.text 0).failed_batches =
        failedBatchReport (runBatches sampleChunks upstageProfile) (fun _ => false)) ∧
    ((run sampleChunks false upstageProfile (fun _ => false) Chunk.text 0 =
        Except.error SetupFailure.embedderUnreachable) →
      (false = false ∧ SetupFailure.embedderUnreachable = SetupFailure.embedderUnreachable)) :=
  ⟨(C7_run_total sampleChunks true upstageProfile (fun _ => false) Chunk.text 0).1 rfl,
    (C7_run_total sampleChunks false upstageProfile (fun _ => false) Chunk.text 0).2
      SetupFailure.embedderUnreachable⟩

/-! ## Per-batch retry state machine and backoff -/

/-- Maximum total attempts per batch ("retry the same batch up to a fixed
maximum of 3 attempts total"). -/
def maxAttempts : Nat := 3

/-- Base backoff delay in seconds ("base_delay = 1 second"). -/
def baseDelay : ℚ := 1

/-- Modelled from the spec: backoff delay before the next attempt after
attempt `attempt` failed — "delay `base_delay * 2^(attempt-1) +
random_jitter`". -/
def retryDelay (attempt : Nat) (jitter : ℚ) : ℚ :=
  baseDelay * 2 ^ (attempt - 1) + jitter

/-- Result of one embed attempt as seen by the retry machine: success, a
retryable failure, or a non-retryable (fatal/systemic) failure. -/
inductive AttemptResult where
  | ok
  | retryable
  | fatal
deriving DecidableEq, Repr

/-- Modelled from the spec: the per-batch state machine of §4.3 —
"`Pending -> Attempting -> {Succeeded, RetryScheduled, Failed}`.
`RetryScheduled` transitions back to `Attempting` after the computed
delay, unless the attempt count has reached the maximum (3), in which case
it transitions to `Failed`."  The counter carried by each state is the
number of attempts made so far. -/
inductive RetryState where
  | pending
  | attempting (attempt : Nat)
  | retryScheduled (attempt : Nat)
  | succeeded (attempts_made : Nat)
  | failed (attempts_made : Nat)
deriving DecidableEq, Repr

/-- Attempts made so far in a retry state. -/
def RetryState.count : RetryState → Nat
  | .pending => 0
  | .attempting n => n
  | .retryScheduled n => n
  | .succeeded n => n
  | .failed n => n

/-- Modelled from the spec: one transition of the per-batch retry machine,
driven by the outcome `res n` of the n-th attempt. -/
def retryStep (res : Nat → AttemptResult) : RetryState → RetryState
  | .pending => .attempting 1
  | .attempting n =>
      match res n with
      | .ok => .succeeded n
      | .retryable => .retryScheduled n
      | .fatal => .failed n
  | .retryScheduled n =>
      if n < maxAttempts then .attempting (n + 1) else .failed n
  | .succeeded n => .succeeded n
  | .failed n => .failed n

/-- The retry machine after `k` transitions from `Pending`. -/
def retryIter (res : Nat → AttemptResult) : Nat → RetryState
  | 0 => .pending
  | k + 1 => retryStep res (retryIter res k)

theorem retryStep_count_le (res : Nat → AttemptResult) (s : RetryState)
    (h : s.count ≤ maxAttempts) : (retryStep res s).count ≤ maxAttempts := by
  cases s with
  | pending => simp [retryStep, RetryState.count, maxAttempts]
  | attempting n =>
      simp only [retryStep]
      cases res n <;> simpa [RetryState.count] using h
  | retryScheduled n =>
      simp only [retryStep]
      split
      · rename_i hlt
        simp only [RetryState.count] at h ⊢
        omega
      · simpa [RetryState.count] using h
  | succeeded n => simpa [retryStep, RetryState.count] using h
  | failed n => simpa [retryStep, RetryState.count] using h

theorem retryIter_count_le (res : Nat → AttemptResult) (k : Nat) :
    (retryIter res k).count ≤ maxAttempts := by
  induction k with
  | zero => simp [retryIter, RetryState.count, maxAttempts]
  | succ k ih => exact retryStep_count_le res _ ih

theorem retryIter_failed_exhausted (res : Nat → AttemptResult)
    (hnf : ∀ m, res m ≠ .fatal) (k : Nat) :
    ∀ n, retryIter res k = .failed n → n = maxAttempts := by
  induction k with
  | zero => intro n h; simp [retryIter] at h
  | succ k ih =>
      intro n h
      have hcount := retryIter_count_le res k
      rw [retryIter] at h
      cases hs : retryIter res k with
      | pending => rw [hs] at h; simp [retryStep] at h
      | attempting m =>
          rw [hs] at h
          simp only [retryStep] at h
          cases hr : res m with
          | ok => rw [hr] at h; simp at h
          | retryable => rw [hr] at h; simp at h
          | fatal => exact absurd hr (hnf m)
      | retryScheduled m =>
          rw [hs] at h
          simp only [retryStep] at h
          split at h
          · simp at h
          · rw [hs] at hcount
            simp only [RetryState.count] at hcount
            cases h
            omega
      | succeeded m => rw [hs] at h; simp [retryStep] at h
      | failed m =>
          rw [hs] at h
          simp only [retryStep] at h
          injection h with hmn
          subst hmn
          exact ih _ hs

/-- C5: the retry machine makes at most 3 total attempts per batch; a
retry from `RetryScheduled` happens exactly while the attempt count is
below 3; when every attempt fails retryably the batch is marked `Failed`
only with all 3 attempts exhausted; the delay before attempt `n+1` is
`base_delay * 2^(n-1) + jitter` with `base_delay = 1`; and for jitter in
`[0, 1]` the computed delays are non-decreasing across successive
attempts. -/
theorem C5_retry_bounded (res : Nat → AttemptResult) :
    (∀ k, (retryIter res k).count ≤ maxAttempts) ∧
    (∀ n, retryStep res (.retryScheduled n) = .attempting (n + 1) ↔ n < maxAttempts) ∧
    ((∀ m, res m ≠ .fatal) →
      ∀ k n, retryIter res k = .failed n → n = maxAttempts) ∧
    (baseDelay = 1 ∧ maxAttempts = 3 ∧
      ∀ n j, retryDelay n j = baseDelay * 2 ^ (n - 1) + j) ∧
    (∀ jitter : Nat → ℚ, (∀ m, 0 ≤ jitter m ∧ jitter m ≤ 1) →
      ∀ n, 1 ≤ n → retryDelay n (jitter n) ≤ retryDelay (n + 1) (jitter (n + 1))) := by
  refine ⟨retryIter_count_le res, ?_, fun hnf k => retryIter_failed_exhausted res hnf k,
    ⟨rfl, rfl, fun _ _ => rfl⟩, ?_⟩
  · intro n
    constructor
    · intro h
      simp only [retryStep] at h
      by_contra hc
      rw [if_neg hc] at h
      simp at h
    · intro h
      simp [retryStep, if_pos h]
  · intro jitter hj n hn
    have h1 := (hj n).2
    have h2 := (hj (n + 1)).1
    unfold retryDelay baseDelay
    have hexp : n + 1 - 1 = n := by omega
    rw [hexp]
    have hsplit : (2 : ℚ) ^ n = 2 ^ (n - 1) * 2 := by
      rw [← pow_succ]
      congr 1
      omega
    have hpow : (1 : ℚ) ≤ 2 ^ (n - 1) := by
      calc (1 : ℚ) = 1 ^ (n - 1) := (one_pow _).symm
      _ ≤ 2 ^ (n - 1) := pow_le_pow_left₀ (by norm_num) (by norm_num) _
    rw [hsplit]
    linarith

theorem C5_retry_bounded_witness :
    ((retryIter (fun _ => AttemptResult.retryable) 7).count ≤ maxAttempts) ∧
    (retryStep (fun _ => AttemptResult.retryable) (.retryScheduled 1) =
      .attempting 2 ↔ 1 < maxAttempts) ∧
    (retryIter (fun _ => AttemptResult.retryable) 7 = .failed 3 → 3 = maxAttempts) ∧
    (retryDelay 2 (1 / 2) = baseDelay * 2 ^ (2 - 1) + 1 / 2) ∧
    (retryDelay 1 ((fun _ => (1 : ℚ) / 2) 1) ≤ retryDelay 2 ((fun _ => (1 : ℚ) / 2) 2)) :=
  ⟨(C5_retry_bounded (fun _ => AttemptResult.retryable)).1 7,
    (C5_retry_bounded (fun _ => AttemptResult.retryable)).2.1 1,
    fun h => (C5_retry_bounded (fun _ => AttemptResult.retryable)).2.2.1
      (fun m => by simp) 7 3 h,
    (C5_retry_bounded (fun _ => AttemptResult.retryable)).2.2.2.1.2.2 2 (1 / 2),
    (C5_retry_bounded (fun _ => AttemptResult.retryable)).2.2.2.2
      (fun _ => 1 / 2) (fun m => by norm_num) 1 (by norm_num)⟩

/-! ## Concurrent dispatch as a transition system -/

/-- Is a settled outcome systemic?  `none` is a success; `some e` is a
final failure classified `e`. -/
def systemicOutcome : Option ErrorClass → Bool
  | none => false
  | some e => e.systemic

/-- Modelled from the spec: the scheduler's dispatch state — batches
`0 .. next-1` have been dispatched (dispatch follows batch index order),
`inflight` are dispatched but not yet settled, `settled` records outcomes
in completion order, and `aborted` is set once a systemic failure
(`RateLimited`/`AuthFatal`) has been observed. -/
structure SchedState where
  next : Nat
  inflight : List Nat
  settled : List (Nat × Option ErrorClass)
  aborted : Bool
deriving DecidableEq, Repr

/-- The initial dispatch state: nothing dispatched, nothing settled. -/
def initState : SchedState := ⟨0, [], [], false⟩

/-- Modelled from the spec: one scheduler event.  `dispatch` starts the
next batch in index order, only while not aborted and while fewer than
`conc` batches are in flight ("a concurrency limiter admitting at most
`plan.concurrency` simultaneously in flight"); `complete` settles an
in-flight batch with its final outcome `res k` ("already-in-flight batches
are allowed to finish"), setting `aborted` when the outcome is
systemic. -/
inductive SchedStep (conc total : Nat) (res : Nat → Option ErrorClass) :
    SchedState → SchedState → Prop where
  | dispatch (s : SchedState) (hab : s.aborted = false) (hn : s.next < total)
      (hc : s.inflight.length < conc) :
      SchedStep conc total res s
        { next := s.next + 1, inflight := s.inflight ++ [s.next],
          settled := s.settled, aborted := s.aborted }
  | complete (s : SchedState) (k : Nat) (hk : k ∈ s.inflight) :
      SchedStep conc total res s
        { next := s.next, inflight := s.inflight.erase k,
          settled := s.settled ++ [(k, res k)],
          aborted := s.aborted || systemicOutcome (res k) }

/-- States reachable by the scheduler from the initial state. -/
def Reachable (conc total : Nat) (res : Nat → Option ErrorClass)
    (s : SchedState) : Prop :=
  Relation.ReflTransGen (SchedStep conc total res) initState s

theorem schedStep_invariant {conc total : Nat} {res : Nat → Option ErrorClass}
    {s s' : SchedState} (h : SchedStep conc total res s s')
    (hinv : s.inflight.length ≤ conc ∧ (∀ k ∈ s.inflight, k < s.next) ∧
      s.next ≤ total) :
    s'.inflight.length ≤ conc ∧ (∀ k ∈ s'.inflight, k < s'.next) ∧
    s'.next ≤ total := by
  obtain ⟨h1, h2, h3⟩ := hinv
  cases h with
  | dispatch hab hn hc =>
      refine ⟨?_, ?_, ?_⟩
      · dsimp only
        simp only [List.length_append, List.length_singleton]
        omega
      · intro k hk
        dsimp only at hk ⊢
        rcases List.mem_append.mp hk with hk' | hk'
        · exact Nat.lt_succ_of_lt (h2 k hk')
        · simp only [List.mem_singleton] at hk'
          omega
      · dsimp only
        omega
  | complete k hk =>
      refine ⟨?_, ?_, h3⟩
      · dsimp only
        exact le_trans (List.Sublist.length_le (List.erase_sublist _ _)) h1
      · intro j hj
        dsimp only at hj ⊢
        exact h2 j (List.mem_of_mem_erase hj)

/-- Reachable states keep at most `conc` batches in flight, every
in-flight batch was already dispatched, and dispatch never passes
`total`. -/
theorem reachable_invariant {conc total : Nat} {res : Nat → Option ErrorClass}
    {s : SchedState} (h : Reachable conc total res s) :
    s.inflight.length ≤ conc ∧ (∀ k ∈ s.inflight, k < s.next) ∧
    s.next ≤ total := by
  induction h with
  | refl => exact ⟨by simp [initState], by simp [initState], by simp [initState]⟩
  | tail _ hstep ih => exact schedStep_invariant hstep ih

theorem schedStep_aborted_mono {conc total : Nat} {res : Nat → Option ErrorClass}
    {s s' : SchedState} (h : SchedStep conc total res s s')
    (hab : s.aborted = true) : s'.aborted = true := by
  cases h with
  | dispatch hab' hn hc => rw [hab'] at hab; exact absurd hab (by simp)
  | complete k hk => dsimp only; simp [hab]

theorem schedStep_abort_freezes {conc total : Nat} {res : Nat → Option ErrorClass}
    {s s' : SchedState} (h : SchedStep conc total res s s')
    (hab : s.aborted = true) : s'.next = s.next := by
  cases h with
  | dispatch hab' hn hc => rw [hab'] at hab; exact absurd hab (by simp)
  | complete k hk => rfl

/-- Once aborted, no later state ever dispatches another batch. -/
theorem abort_freezes_dispatch {conc total : Nat} {res : Nat → Option ErrorClass}
    {s s' : SchedState}
    (h : Relation.ReflTransGen (SchedStep conc total res) s s')
    (hab : s.aborted = true) : s'.next = s.next ∧ s'.aborted = true := by
  induction h with
  | refl => exact ⟨rfl, hab⟩
  | tail _ hstep ih =>
      exact ⟨(schedStep_abort_freezes hstep ih.2).trans ih.1,
        schedStep_aborted_mono hstep ih.2⟩

/-- C6: a systemic failure (`RateLimited` or `AuthFatal`) on batch `k`
stops all further dispatch — `k` was already dispatched (`k < next`), its
completion sets the abort flag, and from then on `next` never grows, so no
batch that had not started is ever dispatched — while batches already in
flight still complete and report their outcome; a non-systemic completion
leaves the abort flag unchanged and so never stops dispatch of the
remaining batches. -/
theorem C6_systemic_abort (conc total : Nat) (res : Nat → Option ErrorClass) :
    (∀ s, Reachable conc total res s → ∀ k, k ∈ s.inflight →
      systemicOutcome (res k) = true →
      k < s.next ∧
      ∃ s₁, SchedStep conc total res s s₁ ∧ (k, res k) ∈ s₁.settled ∧
        s₁.aborted = true ∧ s₁.next = s.next ∧
        ∀ s₂, Relation.ReflTransGen (SchedStep conc total res) s₁ s₂ →
          s₂.next = s.next) ∧
    (∀ s : SchedState, s.aborted = true → ∀ j, j ∈ s.inflight →
      ∃ s₁, SchedStep conc total res s s₁ ∧ (j, res j) ∈ s₁.settled) ∧
    (∀ (s : SchedState) (j : Nat), j ∈ s.inflight →
      systemicOutcome (res j) = false →
      ∃ s₁, SchedStep conc total res s s₁ ∧ (j, res j) ∈ s₁.settled ∧
        s₁.aborted = s.aborted ∧ s₁.next = s.next) := by
  refine ⟨?_, ?_, ?_⟩
  · intro s hreach k hk hsys
    refine ⟨(reachable_invariant hreach).2.1 k hk, ?_⟩
    refine ⟨_, SchedStep.complete s k hk, ?_, ?_, rfl, ?_⟩
    · dsimp only
      exact List.mem_append_right _ (List.mem_singleton.mpr rfl)
    · dsimp only
      rw [hsys, Bool.or_true]
    · intro s₂ h₂
      exact (abort_freezes_dispatch h₂ (by dsimp only; rw [hsys, Bool.or_true])).1
  · intro s hab j hj
    refine ⟨_, SchedStep.complete s j hj, ?_⟩
    dsimp only
    exact List.mem_append_right _ (List.mem_singleton.mpr rfl)
  · intro s j hj hns
    refine ⟨_, SchedStep.complete s j hj, ?_, ?_, rfl⟩
    · dsimp only
      exact List.mem_append_right _ (List.mem_singleton.mpr rfl)
    · dsimp only
      rw [hns, Bool.or_false]

theorem C6_systemic_abort_witness :
    0 < (⟨1, [0], [], false⟩ : SchedState).next ∧
    ∃ s₁, SchedStep 8 19 (fun _ => some ErrorClass.rateLimited)
        ⟨1, [0], [], false⟩ s₁ ∧
      (0, (fun _ => some ErrorClass.rateLimited) 0) ∈ s₁.settled ∧
      s₁.aborted = true ∧
      s₁.next = (⟨1, [0], [], false⟩ : SchedState).next ∧
      ∀ s₂, Relation.ReflTransGen
          (SchedStep 8 19 (fun _ => some ErrorClass.rateLimited)) s₁ s₂ →
        s₂.next = (⟨1, [0], [], false⟩ : SchedState).next :=
  (C6_systemic_abort 8 19 (fun _ => some ErrorClass.rateLimited)).1
    ⟨1, [0], [], false⟩
    (Relation.ReflTransGen.single
      (SchedStep.dispatch initState rfl (by simp [initState]) (by simp [initState])))
    0 (by simp) rfl

/-- C8: batches run under a counting admission limiter — in every
reachable scheduler state at most `conc` batches are in flight, and every
step either leaves `next` unchanged or dispatches exactly the next batch
in index order; for the 591-chunk scenario the plan yields 19 batches with
concurrency 8, so at most 8 of the 19 batches are ever simultaneously in
flight. -/
theorem C8_bounded_concurrency (conc total : Nat) (res : Nat → Option ErrorClass) :
    (∀ s, Reachable conc total res s → s.inflight.length ≤ conc) ∧
    (∀ s s', SchedStep conc total res s s' →
      s'.next = s.next ∨
      (s'.next = s.next + 1 ∧ s'.inflight = s.inflight ++ [s.next])) ∧
    (plan 591 upstageProfile).total_batches = 19 ∧
    (plan 591 upstageProfile).concurrency = 8 ∧
    (∀ s, Reachable (plan 591 upstageProfile).concurrency
        (plan 591 upstageProfile).total_batches res s →
      s.inflight.length ≤ 8) := by
  refine ⟨fun s h => (reachable_invariant h).1, ?_, by decide, by decide, ?_⟩
  · intro s s' hstep
    cases hstep with
    | dispatch hab hn hc => exact Or.inr ⟨rfl, rfl⟩
    | complete k hk => exact Or.inl rfl
  · intro s h
    have h1 := (reachable_invariant h).1
    have hc : (plan 591 upstageProfile).concurrency = 8 := by decide
    exact hc ▸ h1

theorem C8_bounded_concurrency_witness :
    initState.inflight.length ≤ 8 ∧
    ((⟨1, [0], [], false⟩ : SchedState).next = initState.next ∨
      ((⟨1, [0], [], false⟩ : SchedState).next = initState.next + 1 ∧
        (⟨1, [0], [], false⟩ : SchedState).inflight =
          initState.inflight ++ [initState.next])) :=
  ⟨(C8_bounded_concurrency 8 19 (fun _ => none)).1 initState
      Relation.ReflTransGen.refl,
    (C8_bounded_concurrency 8 19 (fun _ => none)).2.1 initState
      ⟨1, [0], [], false⟩
      (SchedStep.dispatch initState rfl (by simp [initState]) (by simp [initState]))⟩

/-! ## ReconnectingWebSocket (frontend/app/utils/websocket.ts) -/

/-- Configuration of `ReconnectingWebSocket`, with the constructor's
default values (`maxReconnectAttempts: 10, reconnectInterval: 1000,
maxReconnectInterval: 30000, reconnectDecay: 1.5`). -/
structure WebSocketConfig where
  maxReconnectAttempts : Nat := 10
  reconnectInterval : ℚ := 1000
  maxReconnectInterval : ℚ := 30000
  reconnectDecay : ℚ := 3 / 2

/-- The all-defaults configuration. -/
def defaultWebSocketConfig : WebSocketConfig := {}

/-- The delay computed in `handleReconnect`:
`Math.min(reconnectInterval * Math.pow(reconnectDecay, reconnectAttempts - 1),
maxReconnectInterval)` after `reconnectAttempts` was incremented to the
attempt number. -/
def reconnectDelay (cfg : WebSocketConfig) (attempt : Nat) : ℚ :=
  min (cfg.reconnectInterval * cfg.reconnectDecay ^ (attempt - 1))
    cfg.maxReconnectInterval

/-- The mutable state `handleReconnect` reads and writes: the
`reconnectAttempts` counter and the `isManualClose` flag. -/
structure WSState where
  reconnectAttempts : Nat
  isManualClose : Bool
deriving DecidableEq, Repr

/-- What one call of `handleReconnect` does: schedule attempt `attempt`
after `delay` ms, report that the maximum was reached, or do nothing
(manual close). -/
inductive ReconnectAction where
  | scheduled (attempt : Nat) (delay : ℚ)
  | maxAttemptsReached
  | noAction
deriving DecidableEq

/-- Translated from `ReconnectingWebSocket.handleReconnect`: if manually
closed or the attempt counter has reached `maxReconnectAttempts`, do not
reconnect (invoking `onMaxReconnectAttemptsReached` in the latter case);
otherwise increment the counter and schedule a reconnect after the
exponential-backoff delay. -/
def handleReconnect (cfg : WebSocketConfig) (s : WSState) :
    ReconnectAction × WSState :=
  if s.isManualClose = true ∨ cfg.maxReconnectAttempts ≤ s.reconnectAttempts then
    (if cfg.maxReconnectAttempts ≤ s.reconnectAttempts then
      ReconnectAction.maxAttemptsReached
    else ReconnectAction.noAction, s)
  else
    (ReconnectAction.scheduled (s.reconnectAttempts + 1)
      (reconnectDelay cfg (s.reconnectAttempts + 1)),
      ⟨s.reconnectAttempts + 1, s.isManualClose⟩)

/-- C9: for a non-manual close with `reconnectAttempts` below the maximum,
`handleReconnect` schedules attempt `n = reconnectAttempts + 1` delayed by
exactly `min(reconnectInterval * reconnectDecay^(n-1),
maxReconnectInterval)`; these delays are non-decreasing in `n` (for
non-negative interval and decay ≥ 1, as the defaults are) and capped by
`maxReconnectInterval`; once the counter reaches `maxReconnectAttempts` no
reconnect is scheduled and the max-attempts callback fires instead; the
defaults are 10 attempts, 1000 ms, decay 1.5, cap 30000 ms. -/
theorem C9_reconnect_backoff (cfg : WebSocketConfig) (s : WSState) :
    (s.isManualClose = false →
      s.reconnectAttempts < cfg.maxReconnectAttempts →
      handleReconnect cfg s =
        (ReconnectAction.scheduled (s.reconnectAttempts + 1)
          (min (cfg.reconnectInterval *
              cfg.reconnectDecay ^ s.reconnectAttempts)
            cfg.maxReconnectInterval),
          ⟨s.reconnectAttempts + 1, false⟩)) ∧
    (0 ≤ cfg.reconnectInterval → 1 ≤ cfg.reconnectDecay →
      ∀ n, reconnectDelay cfg n ≤ reconnectDelay cfg (n + 1)) ∧
    (∀ n, reconnectDelay cfg n ≤ cfg.maxReconnectInterval) ∧
    (cfg.maxReconnectAttempts ≤ s.reconnectAttempts →
      handleReconnect cfg s = (ReconnectAction.maxAttemptsReached, s)) ∧
    (defaultWebSocketConfig.maxReconnectAttempts = 10 ∧
      defaultWebSocketConfig.reconnectInterval = 1000 ∧
      defaultWebSocketConfig.reconnectDecay = 3 / 2 ∧
      defaultWebSocketConfig.maxReconnectInterval = 30000) := by
  refine ⟨?_, ?_, ?_, ?_, rfl, rfl, rfl, rfl⟩
  · intro hm hlt
    unfold handleReconnect
    rw [if_neg (by rw [hm]; simp; omega)]
    rw [hm]
    unfold reconnectDelay
    rw [Nat.add_sub_cancel]
  · intro hi hd n
    unfold reconnectDelay
    refine min_le_min (mul_le_mul_of_nonneg_left ?_ hi) le_rfl
    exact pow_le_pow_right₀ hd (by omega)
  · intro n
    exact min_le_right _ _
  · intro hge
    unfold handleReconnect
    rw [if_pos (Or.inr hge), if_pos hge]

theorem C9_reconnect_backoff_witness :
    (handleReconnect defaultWebSocketConfig ⟨0, false⟩ =
      (ReconnectAction.scheduled 1
        (min (defaultWebSocketConfig.reconnectInterval *
            defaultWebSocketConfig.reconnectDecay ^ 0)
          defaultWebSocketConfig.maxReconnectInterval),
        ⟨1, false⟩)) ∧
    (reconnectDelay defaultWebSocketConfig 1 ≤
      reconnectDelay defaultWebSocketConfig 2) ∧
    (reconnectDelay defaultWebSocketConfig 3 ≤
      defaultWebSocketConfig.maxReconnectInterval) ∧
    (handleReconnect defaultWebSocketConfig ⟨10, false⟩ =
      (ReconnectAction.maxAttemptsReached, ⟨10, false⟩)) :=
  ⟨(C9_reconnect_backoff defaultWebSocketConfig ⟨0, false⟩).1 rfl (by norm_num [defaultWebSocketConfig]),
    (C9_reconnect_backoff defaultWebSocketConfig ⟨0, false⟩).2.1
      (by norm_num [defaultWebSocketConfig]) (by norm_num [defaultWebSocketConfig]) 1,
    (C9_reconnect_backoff defaultWebSocketConfig ⟨0, false⟩).2.2.1 3,
    (C9_reconnect_backoff defaultWebSocketConfig ⟨10, false⟩).2.2.2.1 (by norm_num [defaultWebSocketConfig])⟩

/-! ## DocumentSearch pagination
(app/frontend/app/components/Document/DocumentSearch.tsx) -/

/-- Translated from `const pageSize = 50` in `DocumentSearch.tsx`. -/
def pageSize : Nat := 50

/-- Translated from `nextPage` in `DocumentSearch.tsx`: advance to
`page + 1` while `page * pageSize < totalDocuments`, otherwise wrap to
page 1. -/
def nextPage (totalDocuments page : Nat) : Nat :=
  if page * pageSize < totalDocuments then page + 1 else 1

/-- Translated from `previousPage` in `DocumentSearch.tsx`: go back to
`page - 1` unless on page 1, in which case wrap to
`Math.ceil(totalDocuments / pageSize)`. -/
def previousPage (totalDocuments page : Nat) : Nat :=
  if page = 1 then ceilDiv totalDocuments pageSize else page - 1

/-- C10: with page size 50 and `totalDocuments > 0`, starting from any
page in `[1, ⌈totalDocuments/50⌉]`, `nextPage` yields `page + 1` when
`page * 50 < totalDocuments` and wraps to 1 otherwise, `previousPage`
yields `page - 1` when `page > 1` and wraps to `⌈totalDocuments/50⌉` on
page 1, and both stay within `[1, ⌈totalDocuments/50⌉]`; for
`totalDocuments = 0`, `previousPage` from page 1 leaves this range
(it returns 0). -/
theorem C10_pagination_range (T page : Nat) (hT : 1 ≤ T)
    (h1 : 1 ≤ page) (h2 : page ≤ ceilDiv T pageSize) :
    (page * pageSize < T → nextPage T page = page + 1) ∧
    (¬ page * pageSize < T → nextPage T page = 1) ∧
    (1 < page → previousPage T page = page - 1) ∧
    (page = 1 → previousPage T page = ceilDiv T pageSize) ∧
    (1 ≤ nextPage T page ∧ nextPage T page ≤ ceilDiv T pageSize) ∧
    (1 ≤ previousPage T page ∧ previousPage T page ≤ ceilDiv T pageSize) ∧
    previousPage 0 1 = 0 := by
  have hceil1 : 1 ≤ ceilDiv T pageSize :=
    ceilDiv_pos T pageSize hT (by norm_num [pageSize])
  have hnext_lt : page * pageSize < T → page + 1 ≤ ceilDiv T pageSize := by
    intro h
    unfold ceilDiv
    rw [Nat.le_div_iff_mul_le (by norm_num [pageSize])]
    simp only [pageSize] at h ⊢
    omega
  refine ⟨?_, ?_, ?_, ?_, ?_, ?_, by norm_num [previousPage, ceilDiv, pageSize]⟩
  · intro h; unfold nextPage; rw [if_pos h]
  · intro h; unfold nextPage; rw [if_neg h]
  · intro h; unfold previousPage; rw [if_neg (by omega)]
  · intro h; unfold previousPage; rw [if_pos h]
  · unfold nextPage
    split
    · exact ⟨by omega, hnext_lt (by assumption)⟩
    · exact ⟨le_rfl, hceil1⟩
  · unfold previousPage
    split
    · exact ⟨hceil1, le_rfl⟩
    · exact ⟨by omega, by omega⟩

theorem C10_pagination_range_witness :
    1 ≤ (120 : Nat) ∧ 1 ≤ (2 : Nat) ∧ 2 ≤ ceilDiv 120 pageSize ∧
    ((2 * pageSize < 120 → nextPage 120 2 = 2 + 1) ∧
      (¬ 2 * pageSize < 120 → nextPage 120 2 = 1) ∧
      (1 < 2 → previousPage 120 2 = 2 - 1) ∧
      (2 = 1 → previousPage 120 2 = ceilDiv 120 pageSize) ∧
      (1 ≤ nextPage 120 2 ∧ nextPage 120 2 ≤ ceilDiv 120 pageSize) ∧
      (1 ≤ previousPage 120 2 ∧ previousPage 120 2 ≤ ceilDiv 120 pageSize) ∧
      previousPage 0 1 = 0) :=
  ⟨by decide, by decide, by decide,
    C10_pagination_range 120 2 (by decide) (by decide) (by decide)⟩

end Oxtari
